import Mathlib

/-!
# PyTide `NetworkTools/models/blip.py` — shallow embedding and verification

This file embeds the annotation merge/resolution engine, the rotation-cursor
document buffer, and the append-only contributors list of
`src/NetworkTools/models/blip.py`, and proves or refutes the specification
claims about them.

Conventions of the embedding:
* Python integers are `Int`; Python strings are `String`.
* The mutable `Annotation` objects are embedded as immutable values; field
  mutation is expressed by returning the post-state of each operand.
* `Annotations._data` (a Python `set` of `Annotation` objects) is embedded as a
  `List` of annotation values in the set's (fixed but arbitrary) iteration
  order.  Python compares set members by hash first — the hash is over all four
  fields — so set membership behaves like structural equality of the four
  fields, which is what the list embedding uses.
* A raised Python exception is an `Except.error` carrying the message.
-/

/-- One named/valued metadata interval (`class Annotation`), fields
`_start`, `_end`, `_name`, `_value`.  (`end` is a Lean keyword, hence `end_`.) -/
structure Annotation where
  start : Int
  end_ : Int
  name : String
  value : String
deriving DecidableEq, Repr

/-- The default used for (never out-of-range) list indexing in loops. -/
def annDefault : Annotation := ⟨0, 0, "", ""⟩

instance : Inhabited Annotation := ⟨annDefault⟩

/-- The range (min start, max end) enveloping both operands, keeping the
first operand's name and value.  Used to state what `__eq__` does. -/
def envRange (a b : Annotation) : Annotation :=
  ⟨min a.start b.start, max a.end_ b.end_, a.name, a.value⟩

/-- `Annotation.__eq__` (blip.py lines 119-159).  Returns the truth value
Python returns together with the post-states of `self` and `y`: when the
names and values match, the four start/end comparisons are exhaustive, the
method assigns to `self._start`/`self._end`/`y._start`/`y._end` as in the
source, and returns `True`; otherwise it mutates nothing and returns
`False`. -/
def annotationEq (self y : Annotation) : Bool × Annotation × Annotation :=
  if self.name = y.name ∧ self.value = y.value then
    if self.start ≤ y.start then
      if self.end_ ≤ y.end_ then
        (true, { self with end_ := y.end_ }, { y with start := self.start })
      else
        (true, self, { y with start := self.start, end_ := self.end_ })
    else
      if self.end_ ≤ y.end_ then
        (true, { self with start := y.start, end_ := y.end_ }, y)
      else
        (true, { self with start := y.start }, { y with end_ := self.end_ })
  else (false, self, y)

/-- `Annotation.__ne__` (blip.py lines 160-173): pure comparison of all four
fields. -/
def annotationNe (self y : Annotation) : Bool :=
  self.name ≠ y.name ∨ self.value ≠ y.value ∨ self.start ≠ y.start ∨ self.end_ ≠ y.end_

/-- Python `set((a1, a2, new))` membership insert: an element equal (same
four fields, hence same hash and `__eq__` true without effect) to one already
present is not added. -/
def pySetInsert (s : List Annotation) (a : Annotation) : List Annotation :=
  if a ∈ s then s else s ++ [a]

/-- The three-element Python set literal built inside `_resolve_pair`. -/
def pySetOfThree (a1 a2 a3 : Annotation) : List Annotation :=
  pySetInsert (pySetInsert (pySetInsert [] a1) a2) a3

/-- `set.symmetric_difference_update`: keep elements of `data` not in `arg`,
then add elements of `arg` not in `data`. -/
def symmetricDifferenceUpdate (data arg : List Annotation) : List Annotation :=
  data.filter (fun x => x ∉ arg) ++ arg.filter (fun x => x ∉ data)

/-- The body of `Annotations._resolve_pair` after the initial swap, with
`a1`/`a2` the (end-)ordered operands (blip.py lines 211-231).  The first
branch is the "simplest overlap" test; the `elif` is the containment branch;
any other path raises `Exception("Cannot resolve")`. -/
def resolvePairOrdered (data : List Annotation) (a1 a2 : Annotation) :
    Except String ( Annotation × List Annotation) :=
  if a2.start < a1.end_ then
    if a1.end_ ≥ a2.start then
      Except.ok (⟨a1.start, a2.end_, a1.name, a1.value⟩,
        symmetricDifferenceUpdate data
          (pySetOfThree a1 a2 ⟨a1.start, a2.end_, a1.name, a1.value⟩))
    else if a2.start ≤ a1.start ∧ a1.end_ ≤ a2.end_ then
      Except.ok (a2, data.erase a1)
    else Except.error "Cannot resolve"
  else Except.error "Cannot resolve"

/-- `Annotations._resolve_pair` (blip.py lines 203-231): swap the operands if
they are in the wrong (end) order, then dispatch; returns the resulting
annotation and the updated `_data` set. -/
def resolvePair (data : List Annotation) (b1 b2 : Annotation) :
    Except String ( Annotation × List Annotation) :=
  if b2.end_ < b1.end_ then resolvePairOrdered data b2 b1
  else resolvePairOrdered data b1 b2

/-- All index pairs `(i, j)` of the nested `for annotation_1 in self._data:
for annotation_2 in self._data:` loops, in iteration order. -/
def pairIndices (n : Nat) : List (Nat × Nat) :=
  (List.range n).flatMap (fun i => (List.range n).map (fun j => (i, j)))

/-- The element of the iterated set that a loop index denotes (loop indices
are always in range, so the default is never produced). -/
def elemAt (l : List Annotation) (p : Nat) : Annotation := l.getD p annDefault

/-- One iteration of the nested loop body of `Annotations.resolve`
(blip.py lines 238-244), with `annotation_1`/`annotation_2` the elements at
the two loop indices.  `annotation_1 == annotation_2` invokes the mutating
`__eq__`; on `True` the loop continues with both objects updated in place.
Otherwise, if the `elif` range test holds, `_resolve_pair` is called: it
either raises, or structurally modifies the set being iterated, in which case
the next call into either set iterator raises
`RuntimeError: Set changed size during iteration` (the size check fires on
every `next()`, including the terminating one). -/
def resolveStep (st : Except String (List Annotation)) (ij : Nat × Nat) :
    Except String (List Annotation) :=
  match st with
  | Except.error e => Except.error e
  | Except.ok l =>
      if (annotationEq (elemAt l ij.1) (elemAt l ij.2)).1 then
        Except.ok ((l.set ij.1 (annotationEq (elemAt l ij.1) (elemAt l ij.2)).2.1).set
          ij.2 (annotationEq (elemAt l ij.1) (elemAt l ij.2)).2.2)
      else if (elemAt l ij.2).start < (elemAt l ij.1).end_ ∨
          (elemAt l ij.1).start < (elemAt l ij.2).end_ then
        match resolvePair l (elemAt l ij.1) (elemAt l ij.2) with
        | Except.error e => Except.error e
        | Except.ok _ => Except.error "RuntimeError: Set changed size during iteration"
      else Except.ok l

/-- `Annotations.resolve` (blip.py lines 232-244): the nested loop over the
stored annotations. -/
def resolve (l : List Annotation) : Except String (List Annotation) :=
  (pairIndices l.length).foldl resolveStep (Except.ok l)

/-- `b` envelopes `a`'s range: ranges can only grow under the mutating
equality, and this is the order in which they grow. -/
def covered (a b : Annotation) : Prop :=
  b.start ≤ a.start ∧ a.end_ ≤ b.end_

instance (a b : Annotation) : Decidable (covered a b) := by
  unfold covered; infer_instance

/-! ## The document buffer (`class BlipDocument(deque)`) -/

/-- Python `deque.rotate(n)`: rotate right by `n` (left for negative `n`);
a no-op on the empty deque. -/
def dequeRotate {α : Type} (l : List α) (n : Int) : List α :=
  if l.length = 0 then l
  else
    let k : Nat := (n % (l.length : Int)).toNat
    l.drop (l.length - k) ++ l.take (l.length - k)

/-- `for i in range(value): self.popleft()`: remove `k` elements from the
head, returning the remaining list and, when the deque runs out first, the
`IndexError` Python's `popleft` raises (the elements popped before the error
are gone — the state is kept). -/
def popleftLoop {α : Type} : List α → Nat → List α × Option String
  | l, 0 => (l, none)
  | [], _ + 1 => ([], some "IndexError: pop from an empty deque")
  | _ :: t, k + 1 => popleftLoop t k

/-- `BlipDocument` state: the deque's elements, the `Annotations` proxy's
`_data` set, and the accumulated `rotation`. -/
structure BlipDocument where
  content : List Char
  annotations : List Annotation
  rotation : Int
deriving DecidableEq, Repr

/-- `BlipDocument.retain` (blip.py lines 395-399): add to `rotation`, rotate
the deque left, then call `self.annotations.rotate(-value)` — a method the
`Annotations` class does not define, so the call raises `AttributeError`
after the first two mutations have happened.  The post-state is returned
alongside the raised error. -/
def BlipDocument.retain (d : BlipDocument) (value : Int) :
    BlipDocument × Option String :=
  ({ d with rotation := d.rotation + value,
            content := dequeRotate d.content (-value) },
   some "AttributeError: Annotations instance has no attribute rotate")

/-- `BlipDocument.insert_characters` (blip.py lines 401-414): extend the
deque, bump `rotation` when it is nonzero, then call
`self.annotations.extend(...)` — undefined, so `AttributeError`. -/
def BlipDocument.insertCharacters (d : BlipDocument) (value : List Char) :
    BlipDocument × Option String :=
  let d1 := { d with content := d.content ++ value }
  let d2 := if d1.rotation ≠ 0
    then { d1 with rotation := d1.rotation + value.length } else d1
  (d2, some "AttributeError: Annotations instance has no attribute extend")

/-- `BlipDocument.insert` (blip.py lines 416-426): append the element, then
call `self.annotations.append(...)` — undefined, so `AttributeError`; the
`rotation` adjustment that follows in the source is never reached. -/
def BlipDocument.insert (d : BlipDocument) (value : Char) :
    BlipDocument × Option String :=
  ({ d with content := d.content ++ [value] },
   some "AttributeError: Annotations instance has no attribute append")

/-- `BlipDocument.delete` (blip.py lines 428-432): pop `value` elements from
the head of the deque (an exhausted deque raises `IndexError` part-way, with
the already-popped elements gone), then call `self.annotations.popleft()` —
undefined, so even a successful loop ends in `AttributeError`. -/
def BlipDocument.delete (d : BlipDocument) (value : Int) :
    BlipDocument × Option String :=
  let r := popleftLoop d.content value.toNat
  match r.2 with
  | some e => ({ d with content := r.1 }, some e)
  | none =>
      ({ d with content := r.1 },
       some "AttributeError: Annotations instance has no attribute popleft")

/-- `BlipDocument.fix_rotation` (blip.py lines 387-393): rotate the deque
back, then call `self.annotations.rotate(...)` — undefined, so
`AttributeError`; `rotation` is never reset. -/
def BlipDocument.fixRotation (d : BlipDocument) : BlipDocument × Option String :=
  ({ d with content := dequeRotate d.content d.rotation },
   some "AttributeError: Annotations instance has no attribute rotate")

/-! ## The operation stream and the spec-modelled annotation layer

`BlipDocument` drives its annotation layer through four deque-style methods —
`rotate`, `extend`, `append`, `popleft` — that the `Annotations` class never
defines.  Only their call sites exist under `src/`; the methods themselves
are modelled from the spec (§4.2) below, as operations on a positional
annotation layer that holds, per content element, the name→value tags the
element was inserted with. -/

/-- One operation record of the external operation stream (spec §6). -/
inductive DocOp where
  | retain (n : Int)
  | insertCharacters (s : List Char) (anns : List (String × String))
  | insertElement (c : Char) (anns : List (String × String))
  | delete (n : Int)
deriving DecidableEq, Repr

/-- Modelled from the spec: a document buffer whose annotation layer supports
the four deque-style methods missing from the `Annotations` class.  The
layer is a parallel sequence holding each content element's tags (§4.2:
insertion "tagg[s] the inserted span uniformly with `annotations`", and the
layer is rotated/truncated in step with the content). -/
structure SpecBuffer where
  content : List Char
  annLayer : List (List (String × String))
  rotation : Int
deriving DecidableEq, Repr

/-- Modelled from the spec: `retain` as in the source (blip.py lines
395-399), with the missing `Annotations.rotate` modelled per §4.2 as
"rotating both content and annotation layer left by `n`". -/
def SpecBuffer.retain (d : SpecBuffer) (value : Int) : SpecBuffer :=
  { d with rotation := d.rotation + value,
           content := dequeRotate d.content (-value),
           annLayer := dequeRotate d.annLayer (-value) }

/-- Modelled from the spec: `insert_characters` as in the source (blip.py
lines 401-414), with the missing `Annotations.extend` modelled per §4.2 as
appending one uniformly tagged layer entry per inserted element. -/
def SpecBuffer.insertCharacters (d : SpecBuffer) (value : List Char)
    (anns : List (String × String)) : SpecBuffer :=
  let d1 := { d with content := d.content ++ value }
  let d2 := if d1.rotation ≠ 0
    then { d1 with rotation := d1.rotation + value.length } else d1
  { d2 with annLayer := d2.annLayer ++ List.replicate value.length anns }

/-- Modelled from the spec: `insert` as in the source (blip.py lines
416-426), with the missing `Annotations.append` modelled per §4.2 as
appending the new element's tags to the layer. -/
def SpecBuffer.insert (d : SpecBuffer) (value : Char)
    (anns : List (String × String)) : SpecBuffer :=
  let d1 := { d with content := d.content ++ [value],
                     annLayer := d.annLayer ++ [anns] }
  if d1.rotation ≠ 0 then { d1 with rotation := d1.rotation + 1 } else d1

/-- Modelled from the spec: `delete` as in the source (blip.py lines
428-432) — pop `value` elements from the content head, then one
`popleft` on the layer, the missing method modelled per §4.2 as dropping the
head portion of the annotation layer. -/
def SpecBuffer.delete (d : SpecBuffer) (value : Int) : Except String SpecBuffer :=
  let r := popleftLoop d.content value.toNat
  match r.2 with
  | some e => Except.error e
  | none =>
      match d.annLayer with
      | [] => Except.error "IndexError: pop from an empty deque"
      | _ :: t => Except.ok { d with content := r.1, annLayer := t }

/-- Modelled from the spec: `fix_rotation` as in the source (blip.py lines
387-393), with the missing `Annotations.rotate` modelled per §4.2; the
rotation is rotated back and reset to `0`. -/
def SpecBuffer.fixRotation (d : SpecBuffer) : SpecBuffer :=
  { content := dequeRotate d.content d.rotation,
    annLayer := dequeRotate d.annLayer d.rotation,
    rotation := 0 }

/-- `complete()` (blip.py lines 434-437): `fix_rotation`, then the buffer
itself. -/
def SpecBuffer.complete (d : SpecBuffer) : SpecBuffer := d.fixRotation

/-- Apply one operation record to the spec-modelled buffer. -/
def SpecBuffer.applyOp (d : SpecBuffer) : DocOp → Except String SpecBuffer
  | DocOp.retain n => Except.ok (d.retain n)
  | DocOp.insertCharacters s anns => Except.ok (d.insertCharacters s anns)
  | DocOp.insertElement c anns => Except.ok (d.insert c anns)
  | DocOp.delete n => d.delete n

/-- Apply an operation script in order, stopping at the first error. -/
def SpecBuffer.applyScript (d : SpecBuffer) (ops : List DocOp) :
    Except String SpecBuffer :=
  ops.foldlM SpecBuffer.applyOp d

/-! ## Contributors (`class Contributors(list)`) -/

/-- `Contributors`: a list of user identities. -/
structure Contributors where
  data : List String
deriving DecidableEq, Repr

/-- `list.append` — the only inherited mutator the source leaves usable. -/
def Contributors.append (c : Contributors) (u : String) : Contributors :=
  ⟨c.data ++ [u]⟩

/-- `Contributors.remove` (blip.py lines 451-452): `pass`. -/
def Contributors.remove (c : Contributors) (_ : String) : Contributors := c

/-- `Contributors.pop` (blip.py lines 449-450): `pass`. -/
def Contributors.pop (c : Contributors) (_ : Option Int) : Contributors := c

/-- `Contributors.sort` (blip.py lines 453-454): `pass`. -/
def Contributors.sort (c : Contributors) : Contributors := c

/-- `Contributors.reverse` (blip.py lines 455-456): `pass`. -/
def Contributors.reverse (c : Contributors) : Contributors := c

/-- `Contributors.__delitem__` (blip.py lines 441-442): `pass`. -/
def Contributors.delitem (c : Contributors) (_ : Int) : Contributors := c

/-- `Contributors.__delslice__` (blip.py lines 443-444): `pass`. -/
def Contributors.delslice (c : Contributors) (_ _ : Int) : Contributors := c

/-- `Contributors.__setitem__` (blip.py lines 445-446): `pass`. -/
def Contributors.setitem (c : Contributors) (_ : Int) (_ : String) : Contributors := c

/-- `Contributors.__setslice__` (blip.py lines 447-448): `pass`. -/
def Contributors.setslice (c : Contributors) (_ _ : Int) (_ : List String) :
    Contributors := c

/-- The operations a client can invoke on a `Contributors` list. -/
inductive ContribOp where
  | append (u : String)
  | remove (u : String)
  | pop (n : Option Int)
  | sort
  | reverse
  | delitem (i : Int)
  | delslice (i j : Int)
  | setitem (i : Int) (u : String)
  | setslice (i j : Int) (us : List String)
deriving DecidableEq, Repr

/-- Dispatch a `ContribOp` to the corresponding method. -/
def applyContribOp (c : Contributors) : ContribOp → Contributors
  | ContribOp.append u => c.append u
  | ContribOp.remove u => c.remove u
  | ContribOp.pop n => c.pop n
  | ContribOp.sort => c.sort
  | ContribOp.reverse => c.reverse
  | ContribOp.delitem i => c.delitem i
  | ContribOp.delslice i j => c.delslice i j
  | ContribOp.setitem i u => c.setitem i u
  | ContribOp.setslice i j us => c.setslice i j us

/-! ## Helper lemmas about the envelope order -/

theorem covered_refl (a : Annotation) : covered a a := ⟨le_refl _, le_refl _⟩

theorem covered_trans {a b c : Annotation} (h1 : covered a b) (h2 : covered b c) :
    covered a c := ⟨le_trans h2.1 h1.1, le_trans h1.2 h2.2⟩

theorem covered_env_left (a b : Annotation) : covered a (envRange a b) :=
  ⟨min_le_left _ _, le_max_left _ _⟩

theorem covered_env_right (a b : Annotation) : covered b (envRange a b) :=
  ⟨min_le_right _ _, le_max_right _ _⟩

theorem env_covered {a b c : Annotation} (h1 : covered a c) (h2 : covered b c) :
    covered (envRange a b) c := ⟨le_min h1.1 h2.1, max_le h1.2 h2.2⟩

theorem covered_antisymm {a b : Annotation} (h1 : covered a b) (h2 : covered b a)
    (hn : a.name = b.name) (hv : a.value = b.value) : a = b := by
  cases a; cases b
  simp only [ Annotation.mk.injEq]
  dsimp only [covered] at h1 h2
  exact ⟨le_antisymm h2.1 h1.1, le_antisymm h1.2 h2.2, hn, hv⟩

theorem envRange_self (a : Annotation) : envRange a a = a := by
  cases a; simp [envRange]

theorem envRange_name (a b : Annotation) : (envRange a b).name = a.name := rfl

theorem envRange_value (a b : Annotation) : (envRange a b).value = a.value := rfl

/-- Characterization of the mutating `__eq__`: whenever the names and values
match it returns `True` and rewrites both operands to the envelope of the two
ranges; otherwise it returns `False` and leaves both untouched. -/
theorem annotationEq_spec (a b : Annotation) :
    annotationEq a b =
      if a.name = b.name ∧ a.value = b.value
      then (true, envRange a b, envRange a b)
      else (false, a, b) := by
  cases a with | mk as ae an av =>
  cases b with | mk bs be bn bv =>
  by_cases h : an = bn ∧ av = bv
  · by_cases h1 : as ≤ bs
    · by_cases h2 : ae ≤ be
      · simp [annotationEq, envRange, h, h1, h2, min_eq_left h1, max_eq_right h2]
      · simp [annotationEq, envRange, h, h1, h2, min_eq_left h1,
          max_eq_left (le_of_not_le h2)]
    · have h1' : bs ≤ as := le_of_not_le h1
      by_cases h2 : ae ≤ be
      · simp [annotationEq, envRange, h, h1, h2, min_eq_right h1', max_eq_right h2]
      · simp [annotationEq, envRange, h, h1, h2, min_eq_right h1',
          max_eq_left (le_of_not_le h2)]
  · simp [annotationEq, envRange, h]

/-! ## Runs of the `resolve` loop -/

/-- An error-free run of consecutive `resolve` loop iterations. -/
inductive OkRun : List Annotation → List (Nat × Nat) → List Annotation → Prop where
  | nil (l : List Annotation) : OkRun l [] l
  | cons {l l1 l2 : List Annotation} {p : Nat × Nat} {ps : List (Nat × Nat)} :
      resolveStep (Except.ok l) p = Except.ok l1 → OkRun l1 ps l2 →
      OkRun l (p :: ps) l2

theorem foldl_resolveStep_error (e : String) (ps : List (Nat × Nat)) :
    ps.foldl resolveStep (Except.error e) = Except.error e := by
  induction ps with
  | nil => rfl
  | cons p ps ih => rw [List.foldl_cons]; exact ih

theorem okRun_of_foldl {l l' : List Annotation} {ps : List (Nat × Nat)}
    (h : ps.foldl resolveStep (Except.ok l) = Except.ok l') : OkRun l ps l' := by
  induction ps generalizing l with
  | nil =>
      rw [List.foldl_nil] at h
      cases h
      exact OkRun.nil _
  | cons p ps ih =>
      rw [List.foldl_cons] at h
      cases hstep : resolveStep (Except.ok l) p with
      | error e => rw [hstep, foldl_resolveStep_error] at h; exact absurd h (by simp)
      | ok l1 => rw [hstep] at h; exact OkRun.cons hstep (ih h)

theorem okRun_append {l l2 : List Annotation} {A B : List (Nat × Nat)}
    (h : OkRun l (A ++ B) l2) : ∃ lm, OkRun l A lm ∧ OkRun lm B l2 := by
  induction A generalizing l with
  | nil => exact ⟨l, OkRun.nil l, by simpa using h⟩
  | cons p A ih =>
      rw [List.cons_append] at h
      cases h with
      | cons hstep hrest =>
          obtain ⟨lm, h1, h2⟩ := ih hrest
          exact ⟨lm, OkRun.cons hstep h1, h2⟩

theorem elemAt_set_self {l : List Annotation} {i : Nat} (x : Annotation)
    (h : i < l.length) : elemAt (l.set i x) i = x := by
  simp [elemAt, List.getD_eq_getElem?_getD, List.getElem?_set_self, h]

theorem elemAt_set_other {l : List Annotation} {i p : Nat} (x : Annotation)
    (h : p ≠ i) : elemAt (l.set i x) p = elemAt l p := by
  simp [elemAt, List.getD_eq_getElem?_getD, List.getElem?_set_ne (Ne.symm h)]

theorem elemAt_set_oob {l : List Annotation} {i : Nat} (x : Annotation)
    (h : l.length ≤ i) : l.set i x = l :=
  List.set_eq_of_length_le h

/-- If the loop body at `(i, j)` finds equal names and values, the mutating
equality fires and both positions are overwritten with the envelope. -/
theorem resolveStep_ok_sameKey {l l' : List Annotation} {p : Nat × Nat}
    (h : resolveStep (Except.ok l) p = Except.ok l')
    (hk : (elemAt l p.1).name = (elemAt l p.2).name ∧
          (elemAt l p.1).value = (elemAt l p.2).value) :
    l' = (l.set p.1 (envRange (elemAt l p.1) (elemAt l p.2))).set p.2
          (envRange (elemAt l p.1) (elemAt l p.2)) := by
  simp only [resolveStep, annotationEq_spec, if_pos hk] at h
  simp only [if_pos] at h
  cases h
  rfl

/-- If the loop body at `(i, j)` finds differing names or values and returns
without error, the state is unchanged (reaching `_resolve_pair` always ends
the loop with an exception). -/
theorem resolveStep_ok_diffKey {l l' : List Annotation} {p : Nat × Nat}
    (h : resolveStep (Except.ok l) p = Except.ok l')
    (hk : ¬((elemAt l p.1).name = (elemAt l p.2).name ∧
            (elemAt l p.1).value = (elemAt l p.2).value)) :
    l' = l := by
  simp only [resolveStep, annotationEq_spec, if_neg hk] at h
  by_cases hc : (elemAt l p.2).start < (elemAt l p.1).end_ ∨
      (elemAt l p.1).start < (elemAt l p.2).end_
  · rw [if_pos hc] at h
    cases hr : resolvePair l (elemAt l p.1) (elemAt l p.2) with
    | error e => rw [hr] at h; exact absurd h (by simp)
    | ok x => rw [hr] at h; exact absurd h (by simp)
  · rw [if_neg hc] at h
    cases h
    rfl

theorem resolveStep_ok_length {l l' : List Annotation} {p : Nat × Nat}
    (h : resolveStep (Except.ok l) p = Except.ok l') : l'.length = l.length := by
  by_cases hk : (elemAt l p.1).name = (elemAt l p.2).name ∧
      (elemAt l p.1).value = (elemAt l p.2).value
  · rw [resolveStep_ok_sameKey h hk]; simp
  · rw [resolveStep_ok_diffKey h hk]

/-- Pointwise relation between two loop states: same size, each position's
range has only grown, and each position's name and value are unchanged. -/
def StateLe (l l' : List Annotation) : Prop :=
  l'.length = l.length ∧
  ∀ p : Nat, covered (elemAt l p) (elemAt l' p) ∧
    (elemAt l p).name = (elemAt l' p).name ∧
    (elemAt l p).value = (elemAt l' p).value

theorem stateLe_refl (l : List Annotation) : StateLe l l :=
  ⟨rfl, fun _ => ⟨covered_refl _, rfl, rfl⟩⟩

theorem stateLe_trans {l1 l2 l3 : List Annotation} (h1 : StateLe l1 l2)
    (h2 : StateLe l2 l3) : StateLe l1 l3 :=
  ⟨h1.1 ▸ h2.1, fun p =>
    ⟨covered_trans ((h1.2 p).1) ((h2.2 p).1),
     ((h1.2 p).2.1).trans ((h2.2 p).2.1),
     ((h1.2 p).2.2).trans ((h2.2 p).2.2)⟩⟩

/-- The state after the same-key mutation, position by position. -/
theorem elemAt_after_sameKey (l : List Annotation) (i j q : Nat) (E : Annotation) :
    elemAt ((l.set i E).set j E) q =
      if q = j ∧ j < l.length then E
      else if q = i ∧ i < l.length then E
      else elemAt l q := by
  by_cases hj : q = j ∧ j < l.length
  · rw [if_pos hj]
    rcases hj with ⟨rfl, hlt⟩
    exact elemAt_set_self E (by simpa using hlt)
  · rw [if_neg hj]
    have hq : elemAt ((l.set i E).set j E) q = elemAt (l.set i E) q := by
      rcases Decidable.em (q = j) with rfl | hne
      · have hle : l.length ≤ q := by
          rcases Decidable.em (q < l.length) with hlt | hge
          · exact absurd ⟨rfl, hlt⟩ hj
          · exact Nat.le_of_not_lt hge
        rw [elemAt_set_oob E (by simpa using hle)]
      · exact elemAt_set_other E hne
    rw [hq]
    by_cases hi : q = i ∧ i < l.length
    · rw [if_pos hi]
      rcases hi with ⟨rfl, hlt⟩
      exact elemAt_set_self E hlt
    · rw [if_neg hi]
      rcases Decidable.em (q = i) with rfl | hne
      · have hle : l.length ≤ q := by
          rcases Decidable.em (q < l.length) with hlt | hge
          · exact absurd ⟨rfl, hlt⟩ hi
          · exact Nat.le_of_not_lt hge
        rw [elemAt_set_oob E hle]
      · exact elemAt_set_other E hne

/-- A single error-free loop iteration only grows ranges and keeps keys. -/
theorem resolveStep_ok_le {l l' : List Annotation} {p : Nat × Nat}
    (h : resolveStep (Except.ok l) p = Except.ok l') : StateLe l l' := by
  by_cases hk : (elemAt l p.1).name = (elemAt l p.2).name ∧
      (elemAt l p.1).value = (elemAt l p.2).value
  · have hl' := resolveStep_ok_sameKey h hk
    subst hl'
    refine ⟨by simp, fun q => ?_⟩
    rw [elemAt_after_sameKey]
    by_cases hj : q = p.2 ∧ p.2 < l.length
    · rw [if_pos hj]
      rcases hj with ⟨rfl, _⟩
      exact ⟨covered_env_right _ _, hk.1 ▸ rfl, hk.2 ▸ rfl⟩
    · rw [if_neg hj]
      by_cases hi : q = p.1 ∧ p.1 < l.length
      · rw [if_pos hi]
        rcases hi with ⟨rfl, _⟩
        exact ⟨covered_env_left _ _, rfl, rfl⟩
      · rw [if_neg hi]
        exact ⟨covered_refl _, rfl, rfl⟩
  · rw [resolveStep_ok_diffKey h hk]
    exact stateLe_refl l

/-- Ranges only grow and keys never change along an error-free run. -/
theorem okRun_le {l l' : List Annotation} {ps : List (Nat × Nat)}
    (h : OkRun l ps l') : StateLe l l' := by
  induction h with
  | nil => exact stateLe_refl _
  | cons hstep _ ih => exact stateLe_trans (resolveStep_ok_le hstep) ih

/-- `U` bounds every stored annotation that shares its name and value. -/
def KeyBounded (U : Annotation) (l : List Annotation) : Prop :=
  ∀ q : Nat, q < l.length → (elemAt l q).name = U.name →
    (elemAt l q).value = U.value → covered (elemAt l q) U

/-- A single error-free loop iteration, at in-range loop indices, preserves a
key bound. -/
theorem resolveStep_ok_bounded {l l' : List Annotation} {p : Nat × Nat}
    {U : Annotation} (h : resolveStep (Except.ok l) p = Except.ok l')
    (hp1 : p.1 < l.length) (hp2 : p.2 < l.length)
    (hU : KeyBounded U l) : KeyBounded U l' := by
  by_cases hk : (elemAt l p.1).name = (elemAt l p.2).name ∧
      (elemAt l p.1).value = (elemAt l p.2).value
  · have hl' := resolveStep_ok_sameKey h hk
    subst hl'
    intro q hq hn hv
    rw [elemAt_after_sameKey] at hn hv ⊢
    have hcovE : (envRange (elemAt l p.1) (elemAt l p.2)).name = U.name →
        (envRange (elemAt l p.1) (elemAt l p.2)).value = U.value →
        covered (envRange (elemAt l p.1) (elemAt l p.2)) U := by
      intro hn' hv'
      have h1 : covered (elemAt l p.1) U :=
        hU p.1 hp1 (by rw [← hn']; rfl) (by rw [← hv']; rfl)
      have h2 : covered (elemAt l p.2) U :=
        hU p.2 hp2 (by rw [← hn', envRange_name]; exact hk.1.symm)
          (by rw [← hv', envRange_value]; exact hk.2.symm)
      exact env_covered h1 h2
    by_cases hj : q = p.2 ∧ p.2 < l.length
    · rw [if_pos hj] at hn hv ⊢
      exact hcovE hn hv
    · rw [if_neg hj] at hn hv ⊢
      by_cases hi : q = p.1 ∧ p.1 < l.length
      · rw [if_pos hi] at hn hv ⊢
        exact hcovE hn hv
      · rw [if_neg hi] at hn hv ⊢
        exact hU q (by simpa using hq) hn hv
  · rw [resolveStep_ok_diffKey h hk] at *
    exact hU

/-- A key bound on the stored annotations survives an error-free run whose
loop indices are in range. -/
theorem okRun_bounded {l l' : List Annotation} {ps : List (Nat × Nat)}
    {U : Annotation} (h : OkRun l ps l')
    (hps : ∀ pr ∈ ps, pr.1 < l.length ∧ pr.2 < l.length)
    (hU : KeyBounded U l) : KeyBounded U l' := by
  induction h with
  | nil => exact hU
  | cons hstep hrest ih =>
      rename_i lA lB lC pr prs
      have hpr := hps pr (List.mem_cons_self pr prs)
      have hlen : lB.length = lA.length := resolveStep_ok_length hstep
      exact ih (fun x hx => hlen ▸ hps x (List.mem_cons_of_mem pr hx))
        (resolveStep_ok_bounded hstep hpr.1 hpr.2 hU)

/-- During the inner pass with outer index `i`, the element at `i` absorbs
(envelopes) every same-key element the pass visits. -/
theorem okRun_row_absorb {l' : List Annotation} {i : Nat} {js : List Nat}
    {l : List Annotation} (h : OkRun l (js.map (fun j => (i, j))) l')
    (hi : i < l.length) :
    ∀ j ∈ js, j < l.length →
      (elemAt l j).name = (elemAt l i).name →
      (elemAt l j).value = (elemAt l i).value →
      covered (elemAt l j) (elemAt l' i) := by
  induction js generalizing l with
  | nil => intro j hj; cases hj
  | cons j0 js ih =>
      rw [List.map_cons] at h
      cases h with
      | cons hstep hrest =>
          rename_i l1
          intro j hj hjlen hn hv
          have hle : StateLe l l1 := resolveStep_ok_le hstep
          rcases List.mem_cons.mp hj with rfl | hjmem
          · have hk : (elemAt l i).name = (elemAt l j).name ∧
                (elemAt l i).value = (elemAt l j).value := ⟨hn.symm, hv.symm⟩
            have hl1 := resolveStep_ok_sameKey hstep hk
            have hE : elemAt l1 i = envRange (elemAt l i) (elemAt l j) := by
              rw [hl1, elemAt_after_sameKey]
              by_cases hij : i = j
              · rw [if_pos ⟨hij, hij ▸ hi⟩]
              · rw [if_neg (fun hc => hij hc.1), if_pos ⟨rfl, hi⟩]
            have h1 : covered (elemAt l j) (elemAt l1 i) :=
              hE ▸ covered_env_right _ _
            have h2 : covered (elemAt l1 i) (elemAt l' i) := ((okRun_le hrest).2 i).1
            exact covered_trans h1 h2
          · have hlen1 : l1.length = l.length := hle.1
            have hkey : (elemAt l1 j).name = (elemAt l1 i).name ∧
                (elemAt l1 j).value = (elemAt l1 i).value := by
              constructor
              · rw [← (hle.2 j).2.1, ← (hle.2 i).2.1]; exact hn
              · rw [← (hle.2 j).2.2, ← (hle.2 i).2.2]; exact hv
            have ihh := ih hrest (hlen1 ▸ hi) j hjmem (hlen1 ▸ hjlen) hkey.1 hkey.2
            exact covered_trans ((hle.2 j).1) ihh

theorem mem_pairIndices {n : Nat} {pr : Nat × Nat} (h : pr ∈ pairIndices n) :
    pr.1 < n ∧ pr.2 < n := by
  unfold pairIndices at h
  rw [List.mem_flatMap] at h
  obtain ⟨i, hi, hmem⟩ := h
  rw [List.mem_map] at hmem
  obtain ⟨j, hj, rfl⟩ := hmem
  exact ⟨List.mem_range.mp hi, List.mem_range.mp hj⟩

/-- Splitting the full `resolve` run around the outer iteration with index
`m`: a prefix run, the inner pass for `m`, and a suffix run. -/
theorem okRun_split_row {l l' : List Annotation} {n m : Nat}
    (h : OkRun l (pairIndices n) l') (hm : m < n) :
    ∃ la lb, StateLe l la ∧
      OkRun la ((List.range n).map (fun j => (m, j))) lb ∧ StateLe lb l' := by
  obtain ⟨s, t, hst⟩ := List.append_of_mem (List.mem_range.mpr hm)
  have hps : pairIndices n =
      (s.flatMap (fun i => (List.range n).map (fun j => (i, j)))) ++
      (((List.range n).map (fun j => (m, j))) ++
       (t.flatMap (fun i => (List.range n).map (fun j => (i, j))))) := by
    unfold pairIndices
    rw [hst, List.flatMap_append, List.flatMap_cons]
  rw [hps] at h
  obtain ⟨la, h1, h2⟩ := okRun_append h
  obtain ⟨lb, h3, h4⟩ := okRun_append h2
  exact ⟨la, lb, okRun_le h1, h3, okRun_le h4⟩

/-- Over the full run, the final element at position `m` envelopes every
initial element sharing its name and value. -/
theorem resolve_run_absorb {l l' : List Annotation}
    (h : OkRun l (pairIndices l.length) l')
    {m q : Nat} (hm : m < l.length) (hq : q < l.length)
    (hn : (elemAt l q).name = (elemAt l m).name)
    (hv : (elemAt l q).value = (elemAt l m).value) :
    covered (elemAt l q) (elemAt l' m) := by
  obtain ⟨la, lb, hS1, hrow, hS3⟩ := okRun_split_row h hm
  have hlen : la.length = l.length := hS1.1
  have habs := okRun_row_absorb hrow (hlen ▸ hm) q (List.mem_range.mpr hq)
      (hlen ▸ hq)
      (by rw [← (hS1.2 q).2.1, ← (hS1.2 m).2.1]; exact hn)
      (by rw [← (hS1.2 q).2.2, ← (hS1.2 m).2.2]; exact hv)
  exact covered_trans ((hS1.2 q).1) (covered_trans habs ((hS3.2 m).1))

/-- After an error-free `resolve`, any two positions holding the same name
and value hold the same annotation. -/
theorem resolve_ok_elem_eq {l l' : List Annotation} (h : resolve l = Except.ok l')
    {i j : Nat} (hi : i < l.length) (hj : j < l.length)
    (hn : (elemAt l' i).name = (elemAt l' j).name)
    (hv : (elemAt l' i).value = (elemAt l' j).value) :
    elemAt l' i = elemAt l' j := by
  unfold resolve at h
  have hrun : OkRun l (pairIndices l.length) l' := okRun_of_foldl h
  have hS := okRun_le hrun
  have hbnd : ∀ m : Nat, m < l.length → KeyBounded (elemAt l' m) l' := by
    intro m hm
    have hKB : KeyBounded (elemAt l' m) l := by
      intro q hq hqn hqv
      exact resolve_run_absorb hrun hm hq
        (hqn.trans ((hS.2 m).2.1).symm) (hqv.trans ((hS.2 m).2.2).symm)
    exact okRun_bounded hrun (fun pr hpr => mem_pairIndices hpr) hKB
  have h1 : covered (elemAt l' j) (elemAt l' i) :=
    hbnd i hi j (hS.1 ▸ hj) hn.symm hv.symm
  have h2 : covered (elemAt l' i) (elemAt l' j) :=
    hbnd j hj i (hS.1 ▸ hi) hn hv
  exact covered_antisymm h2 h1 hn hv

/-- Every member of a list sits at some in-range position. -/
theorem elemAt_of_mem {l : List Annotation} {a : Annotation} (h : a ∈ l) :
    ∃ i, i < l.length ∧ elemAt l i = a := by
  obtain ⟨i, hi⟩ := List.mem_iff_get.mp h
  refine ⟨i.1, i.2, ?_⟩
  rw [← hi]
  simp [elemAt, List.getD_eq_getElem?_getD, List.getElem?_eq_getElem i.2, List.get_eq_getElem]

/-- `_resolve_pair` on a properly overlapping same-key pair (neither range
contains the other) merges to the envelope. -/
theorem resolvePair_overlap (data : List Annotation) (a b : Annotation)
    (hn : a.name = b.name) (hv : a.value = b.value)
    (h1 : a.start < b.end_) (h2 : b.start < a.end_)
    (hc1 : ¬(a.start ≤ b.start ∧ b.end_ ≤ a.end_))
    (hc2 : ¬(b.start ≤ a.start ∧ a.end_ ≤ b.end_)) :
    ∃ d, resolvePair data a b = Except.ok (envRange a b, d) := by
  unfold resolvePair resolvePairOrdered
  by_cases hlt : b.end_ < a.end_
  · rw [if_pos hlt, if_pos h1, if_pos (le_of_lt h1)]
    have hbs : b.start < a.start := by
      by_contra hcon
      exact hc1 ⟨le_of_not_lt hcon, le_of_lt hlt⟩
    have hmk : (⟨b.start, a.end_, b.name, b.value⟩ : Annotation) = envRange a b := by
      simp [envRange, Annotation.mk.injEq, min_eq_right (le_of_lt hbs),
        max_eq_left (le_of_lt hlt), hn, hv]
    rw [hmk]
    exact ⟨_, rfl⟩
  · rw [if_neg hlt, if_pos h2, if_pos (le_of_lt h2)]
    have hle : a.end_ ≤ b.end_ := le_of_not_lt hlt
    have has : a.start < b.start := by
      by_contra hcon
      exact hc2 ⟨le_of_not_lt hcon, hle⟩
    have hmk : (⟨a.start, b.end_, a.name, a.value⟩ : Annotation) = envRange a b := by
      simp [envRange, Annotation.mk.injEq, min_eq_left (le_of_lt has),
        max_eq_right hle]
    rw [hmk]
    exact ⟨_, rfl⟩

/-- The inner `popleft` loop succeeds exactly when the deque is long enough. -/
theorem popleftLoop_snd_none {α : Type} (l : List α) (k : Nat) (h : k ≤ l.length) :
    (popleftLoop l k).2 = none := by
  induction l generalizing k with
  | nil =>
      cases k with
      | zero => rfl
      | succ k => simp at h
  | cons a t ih =>
      cases k with
      | zero => rfl
      | succ k => exact ih k (Nat.le_of_succ_le_succ (by simpa using h))

/-- The inner `popleft` loop raises `IndexError` when asked for more elements
than the deque holds. -/
theorem popleftLoop_snd_some {α : Type} (l : List α) (k : Nat) (h : l.length < k) :
    (popleftLoop l k).2 = some "IndexError: pop from an empty deque" := by
  induction l generalizing k with
  | nil =>
      cases k with
      | zero => simp at h
      | succ k => rfl
  | cons a t ih =>
      cases k with
      | zero => simp at h
      | succ k => exact ih k (by simpa using h)

/-- Every `Contributors` operation appends some (possibly empty) suffix. -/
theorem applyContribOp_append (c : Contributors) (op : ContribOp) :
    ∃ s, (applyContribOp c op).data = c.data ++ s := by
  cases op with
  | append u => exact ⟨[u], rfl⟩
  | remove u => exact ⟨[], by simp [applyContribOp, Contributors.remove]⟩
  | pop n => exact ⟨[], by simp [applyContribOp, Contributors.pop]⟩
  | sort => exact ⟨[], by simp [applyContribOp, Contributors.sort]⟩
  | reverse => exact ⟨[], by simp [applyContribOp, Contributors.reverse]⟩
  | delitem i => exact ⟨[], by simp [applyContribOp, Contributors.delitem]⟩
  | delslice i j => exact ⟨[], by simp [applyContribOp, Contributors.delslice]⟩
  | setitem i u => exact ⟨[], by simp [applyContribOp, Contributors.setitem]⟩
  | setslice i j us => exact ⟨[], by simp [applyContribOp, Contributors.setslice]⟩

/-- Folding any sequence of `Contributors` operations only appends. -/
theorem foldl_contribOps_append (c : Contributors) (ops : List ContribOp) :
    ∃ s, (ops.foldl applyContribOp c).data = c.data ++ s := by
  induction ops generalizing c with
  | nil => exact ⟨[], by simp⟩
  | cons op ops ih =>
      obtain ⟨s1, hs1⟩ := applyContribOp_append c op
      obtain ⟨s2, hs2⟩ := ih (applyContribOp c op)
      exact ⟨s1 ++ s2, by rw [List.foldl_cons, hs2, hs1, List.append_assoc]⟩

/-! ## Claim theorems -/

/-- C1 (code bug): the claim — containment merges discard the contained
interval and keep the containing one unchanged — matches the containment
branch of `_resolve_pair` (blip.py lines 222-226), but that branch is
unreachable: its guard is the negation of `annotation_1.end >=
annotation_2.start`, which is implied by the enclosing overlap test.  At the
failing input, merging `(0,5,"b","true")` with `(1,3,"b","true")` returns the
new annotation `(1,5)` — neither operand — instead of keeping `(0,5)`.  The
claim's concrete example is nevertheless true of `resolve`, whose mutating
equality rewrites both stored elements to `(0,5)` without ever calling
`_resolve_pair`, so the resulting set of values is exactly `{(0,5)}`. -/
theorem c1_containment_merge_eval :
    resolvePair [(⟨0, 5, "b", "true"⟩ : Annotation), ⟨1, 3, "b", "true"⟩]
        ⟨0, 5, "b", "true"⟩ ⟨1, 3, "b", "true"⟩ =
      Except.ok (⟨1, 5, "b", "true"⟩, [⟨1, 5, "b", "true"⟩]) ∧
    (⟨1, 5, "b", "true"⟩ : Annotation) ≠ ⟨0, 5, "b", "true"⟩ ∧
    resolve [⟨0, 5, "b", "true"⟩, ⟨1, 3, "b", "true"⟩] =
      Except.ok [⟨0, 5, "b", "true"⟩, ⟨0, 5, "b", "true"⟩] ∧
    resolve [⟨1, 3, "b", "true"⟩, ⟨0, 5, "b", "true"⟩] =
      Except.ok [⟨0, 5, "b", "true"⟩, ⟨0, 5, "b", "true"⟩] := by
  refine ⟨rfl, by decide, rfl, rfl⟩

/-- C2 (counterexample): merging the touching same-key pair
`(0,2,"b","true")`, `(2,4,"b","true")` (here `b.start == a.end`) does not
succeed — `_resolve_pair` raises `Cannot resolve`, refuting "it does not
fail". -/
theorem c2_touching_counterexample :
    resolvePair [(⟨0, 2, "b", "true"⟩ : Annotation), ⟨2, 4, "b", "true"⟩]
        ⟨0, 2, "b", "true"⟩ ⟨2, 4, "b", "true"⟩ =
      Except.error "Cannot resolve" := rfl

/-- C2 (amended): for every same-name, same-value pair whose ranges touch
(`b.start = a.end`, with `b` well-formed), `_resolve_pair` fails with
`Cannot resolve` — the overlap test `annotation_2.start < annotation_1.end`
is strict and no other branch matches; `resolve`, by contrast, envelopes a
touching stored pair through its mutating equality without calling
`_resolve_pair`, as the concrete conjunct shows. -/
theorem c2_touching_amended :
    (∀ (data : List Annotation) (a b : Annotation),
      a.name = b.name → a.value = b.value → b.start = a.end_ →
      b.start ≤ b.end_ → resolvePair data a b = Except.error "Cannot resolve") ∧
    resolve [(⟨0, 2, "b", "true"⟩ : Annotation), ⟨2, 4, "b", "true"⟩] =
      Except.ok [⟨0, 4, "b", "true"⟩, ⟨0, 4, "b", "true"⟩] := by
  constructor
  · intro data a b _ _ ht hwf
    unfold resolvePair resolvePairOrdered
    rw [if_neg (not_lt.mpr (ht ▸ hwf))]
    rw [if_neg (by rw [ht]; exact lt_irrefl _)]
  · rfl

/-- C2 (witness): the amended statement applied at the touching pair
`(0,2,"b","true")`, `(2,4,"b","true")` with the stored set as `data`. -/
theorem c2_touching_amended_witness :
    resolvePair [(⟨0, 2, "b", "true"⟩ : Annotation), ⟨2, 4, "b", "true"⟩]
        ⟨0, 2, "b", "true"⟩ ⟨2, 4, "b", "true"⟩ =
      Except.error "Cannot resolve" :=
  c2_touching_amended.1 [⟨0, 2, "b", "true"⟩, ⟨2, 4, "b", "true"⟩]
    ⟨0, 2, "b", "true"⟩ ⟨2, 4, "b", "true"⟩ rfl rfl (by decide) (by decide)

/-- C3 (counterexample): the equality comparison used during resolution is
not pure — comparing `(0,5,"b","true")` with `(1,3,"b","true")` returns
`True` and mutates the second operand's range (to the envelope `(0,5)`),
refuting "never mutates the start, end, name, or value fields of a or b". -/
theorem c3_eq_mutates_counterexample :
    (annotationEq ⟨0, 5, "b", "true"⟩ ⟨1, 3, "b", "true"⟩).1 = true ∧
    (annotationEq ⟨0, 5, "b", "true"⟩ ⟨1, 3, "b", "true"⟩).2.2 ≠
      ⟨1, 3, "b", "true"⟩ := by
  refine ⟨rfl, by decide⟩

/-- C3 (amended): `_resolve_pair` itself returns a newly constructed
annotation (or an error) and never assigns to its operands' fields, but the
equality comparison used during resolution is mutating: whenever the names
and values match, `__eq__` rewrites both operands' ranges to the envelope
(min start, max end) of the two and returns `True`; only when the names or
values differ does it leave both operands untouched. -/
theorem c3_eq_mutation_amended :
    ∀ a b : Annotation,
      annotationEq a b =
        if a.name = b.name ∧ a.value = b.value
        then (true, envRange a b, envRange a b)
        else (false, a, b) :=
  annotationEq_spec

/-- C4 (confirmed): if `resolve` returns without an exception, the stored
annotations are at a fixpoint — any two stored values sharing a name and a
value with overlapping or adjacent (closed) ranges are the same annotation,
i.e. no two distinct stored annotations share `(name, value)` with
overlapping or adjacent ranges.  (The mutating equality may leave several
copies of one enveloping value in the set; as values, each `(name, value)`
key retains a single range.) -/
theorem c4_resolve_fixpoint {l l' : List Annotation}
    (h : resolve l = Except.ok l') (a b : Annotation)
    (ha : a ∈ l') (hb : b ∈ l')
    (hn : a.name = b.name) (hv : a.value = b.value)
    (_hr1 : a.start ≤ b.end_) (_hr2 : b.start ≤ a.end_) : a = b := by
  obtain ⟨i, hi, hia⟩ := elemAt_of_mem ha
  obtain ⟨j, hj, hjb⟩ := elemAt_of_mem hb
  have hlen : l'.length = l.length := by
    unfold resolve at h
    exact (okRun_le (okRun_of_foldl h)).1
  rw [← hia, ← hjb]
  exact resolve_ok_elem_eq h (hlen ▸ hi) (hlen ▸ hj)
    (by rw [hia, hjb]; exact hn) (by rw [hia, hjb]; exact hv)

/-- C4 (witness): `resolve` on `{(0,2,"b","true"), (1,4,"b","true")}`
succeeds with both stored values equal to `(0,4,"b","true")`, and the
fixpoint theorem applied to that output at the shared key yields equality. -/
theorem c4_resolve_fixpoint_witness :
    resolve [(⟨0, 2, "b", "true"⟩ : Annotation), ⟨1, 4, "b", "true"⟩] =
      Except.ok [⟨0, 4, "b", "true"⟩, ⟨0, 4, "b", "true"⟩] ∧
    (⟨0, 4, "b", "true"⟩ : Annotation) = ⟨0, 4, "b", "true"⟩ :=
  ⟨rfl,
   c4_resolve_fixpoint (l := [⟨0, 2, "b", "true"⟩, ⟨1, 4, "b", "true"⟩]) rfl
     ⟨0, 4, "b", "true"⟩ ⟨0, 4, "b", "true"⟩
     (List.mem_cons_self _ _) (List.mem_cons_self _ _)
     rfl rfl (by decide) (by decide)⟩

/-- C5 (confirmed, spec-modelled annotation layer): applying
`[Retain(2), InsertCharacters("XY"), Delete(1)]` to a buffer with base
content `"ABCD"` and then calling `complete()` yields `"ABXYD"`.  The
content and rotation behavior is the source's (`BlipDocument`); the four
deque methods the source invokes on its `Annotations` object but never
defines are modelled from spec §4.2. -/
theorem c5_script_yields_abxyd :
    (SpecBuffer.applyScript ⟨"ABCD".toList, List.replicate 4 [], 0⟩
        [DocOp.retain 2, DocOp.insertCharacters "XY".toList [], DocOp.delete 1]).map
      (fun d => (SpecBuffer.complete d).content) =
    Except.ok "ABXYD".toList := rfl

/-- C6 (code bug, evaluation at the failing input): `delete(3)` on a buffer
holding `['A','B']` does not fail with `OutOfRange` leaving the buffer
unchanged — it pops both elements, then `popleft` on the exhausted deque
raises `IndexError`, leaving the emptied buffer behind (partial mutation is
observable). -/
theorem c6_delete_overrun_eval :
    BlipDocument.delete ⟨['A', 'B'], [], 0⟩ 3 =
      (⟨[], [], 0⟩, some "IndexError: pop from an empty deque") ∧
    (⟨[], [], 0⟩ : BlipDocument) ≠ ⟨['A', 'B'], [], 0⟩ := by
  refine ⟨rfl, by decide⟩

/-- C7 (confirmed): on a properly overlapping same-key pair (ranges overlap
and neither contains the other, the spec's "overlap" case), `_resolve_pair`
merges to the envelope `(min start, max end)`; and resolving the stored set
`{(0,2,"b","true"), (1,4,"b","true")}` yields exactly `{(0,4,"b","true")}`
as a set of values, in either iteration order. -/
theorem c7_overlap_merge_envelope :
    (∀ (data : List Annotation) (a b : Annotation),
      a.name = b.name → a.value = b.value →
      a.start < b.end_ → b.start < a.end_ →
      ¬(a.start ≤ b.start ∧ b.end_ ≤ a.end_) →
      ¬(b.start ≤ a.start ∧ a.end_ ≤ b.end_) →
      ∃ d, resolvePair data a b = Except.ok (envRange a b, d)) ∧
    resolve [(⟨0, 2, "b", "true"⟩ : Annotation), ⟨1, 4, "b", "true"⟩] =
      Except.ok [⟨0, 4, "b", "true"⟩, ⟨0, 4, "b", "true"⟩] ∧
    resolve [(⟨1, 4, "b", "true"⟩ : Annotation), ⟨0, 2, "b", "true"⟩] =
      Except.ok [⟨0, 4, "b", "true"⟩, ⟨0, 4, "b", "true"⟩] :=
  ⟨resolvePair_overlap, rfl, rfl⟩

/-- C7 (witness): the envelope statement applied at the properly overlapping
pair `(0,2,"b","true")`, `(1,4,"b","true")`. -/
theorem c7_overlap_merge_envelope_witness :
    ∃ d, resolvePair [] (⟨0, 2, "b", "true"⟩ : Annotation) ⟨1, 4, "b", "true"⟩ =
      Except.ok (envRange ⟨0, 2, "b", "true"⟩ ⟨1, 4, "b", "true"⟩, d) :=
  c7_overlap_merge_envelope.1 [] ⟨0, 2, "b", "true"⟩ ⟨1, 4, "b", "true"⟩
    rfl rfl (by decide) (by decide) (by decide) (by decide)

/-- C8 (confirmed): on a properly overlapping same-key pair (the spec's
"overlap" case), `_resolve_pair` is insensitive to argument order — the
initial swap canonicalizes the operands by their ends, and equal ends are
impossible for a proper overlap. -/
theorem c8_merge_comm (data : List Annotation) (a b : Annotation)
    (_hn : a.name = b.name) (_hv : a.value = b.value)
    (_h1 : a.start < b.end_) (_h2 : b.start < a.end_)
    (hc1 : ¬(a.start ≤ b.start ∧ b.end_ ≤ a.end_))
    (hc2 : ¬(b.start ≤ a.start ∧ a.end_ ≤ b.end_)) :
    resolvePair data a b = resolvePair data b a := by
  unfold resolvePair
  rcases lt_trichotomy a.end_ b.end_ with hlt | heq | hgt
  · rw [if_neg (not_lt.mpr (le_of_lt hlt)), if_pos hlt]
  · exfalso
    by_cases hs : a.start ≤ b.start
    · exact hc1 ⟨hs, le_of_eq heq.symm⟩
    · exact hc2 ⟨le_of_not_le hs, le_of_eq heq⟩
  · rw [if_pos hgt, if_neg (not_lt.mpr (le_of_lt hgt))]

/-- C8 (witness): commutativity applied at the properly overlapping pair
`(0,2,"b","true")`, `(1,4,"b","true")`. -/
theorem c8_merge_comm_witness :
    resolvePair [] (⟨0, 2, "b", "true"⟩ : Annotation) ⟨1, 4, "b", "true"⟩ =
    resolvePair [] (⟨1, 4, "b", "true"⟩ : Annotation) ⟨0, 2, "b", "true"⟩ :=
  c8_merge_comm [] ⟨0, 2, "b", "true"⟩ ⟨1, 4, "b", "true"⟩
    rfl rfl (by decide) (by decide) (by decide) (by decide)

/-- C9 (confirmed): `Contributors` is append-only — `remove`, `pop`, `sort`,
`reverse`, item/slice deletion and item/slice assignment are silent no-ops;
`[u1]` after `append(u2)` then `remove(u1)` is exactly `[u1, u2]`; and under
any sequence of available operations the stored list only ever gains a
suffix, so its length never decreases and the order of existing elements
never changes. -/
theorem c9_contributors_append_only :
    (∀ (c : Contributors) (u : String), c.remove u = c) ∧
    (∀ (c : Contributors) (n : Option Int), c.pop n = c) ∧
    (∀ c : Contributors, c.sort = c) ∧
    (∀ c : Contributors, c.reverse = c) ∧
    (∀ (c : Contributors) (i : Int), c.delitem i = c) ∧
    (∀ (c : Contributors) (i j : Int), c.delslice i j = c) ∧
    (∀ (c : Contributors) (i : Int) (u : String), c.setitem i u = c) ∧
    (∀ (c : Contributors) (i j : Int) (us : List String), c.setslice i j us = c) ∧
    ((Contributors.mk ["u1"]).append "u2").remove "u1" =
      Contributors.mk ["u1", "u2"] ∧
    (∀ (c : Contributors) (ops : List ContribOp),
      ∃ s, (ops.foldl applyContribOp c).data = c.data ++ s) :=
  ⟨fun _ _ => rfl, fun _ _ => rfl, fun _ => rfl, fun _ => rfl, fun _ _ => rfl,
   fun _ _ _ => rfl, fun _ _ _ => rfl, fun _ _ _ _ => rfl, rfl,
   foldl_contribOps_append⟩

/-- C10 (counterexample): not every `delete` call reaches the missing
`Annotations.popleft` — deleting from an empty buffer raises `IndexError`
from the deque's own `popleft` first, not an `AttributeError`. -/
theorem c10_delete_empty_counterexample :
    (BlipDocument.delete ⟨[], [], 0⟩ 1).2 =
      some "IndexError: pop from an empty deque" ∧
    (BlipDocument.delete ⟨[], [], 0⟩ 1).2 ≠
      some "AttributeError: Annotations instance has no attribute popleft" := by
  refine ⟨rfl, by decide⟩

/-- C10 (amended): `retain`, `insert_characters` and `insert` always raise
`AttributeError` at their annotation-layer step (`rotate`, `extend`,
`append`), for all arguments and buffer states; `delete(n)` raises
`AttributeError` at its `popleft` step whenever `n` does not exceed the
number of stored elements (after removing the requested elements), and
otherwise raises `IndexError` from the content deque before the
annotation-layer step is reached. -/
theorem c10_annotation_layer_attribute_errors :
    (∀ (d : BlipDocument) (n : Int), (d.retain n).2 =
      some "AttributeError: Annotations instance has no attribute rotate") ∧
    (∀ (d : BlipDocument) (s : List Char), (d.insertCharacters s).2 =
      some "AttributeError: Annotations instance has no attribute extend") ∧
    (∀ (d : BlipDocument) (c : Char), (d.insert c).2 =
      some "AttributeError: Annotations instance has no attribute append") ∧
    (∀ (d : BlipDocument) (n : Int), n.toNat ≤ d.content.length →
      (d.delete n).2 =
        some "AttributeError: Annotations instance has no attribute popleft") ∧
    (∀ (d : BlipDocument) (n : Int), d.content.length < n.toNat →
      (d.delete n).2 = some "IndexError: pop from an empty deque") := by
  refine ⟨fun _ _ => rfl, fun _ _ => rfl, fun _ _ => rfl, ?_, ?_⟩
  · intro d n h
    simp [BlipDocument.delete, popleftLoop_snd_none d.content n.toNat h]
  · intro d n h
    simp [BlipDocument.delete, popleftLoop_snd_some d.content n.toNat h]

/-- C10 (witness): the amended statement applied to a one-element buffer:
`delete(1)` ends in the `popleft` `AttributeError`, `delete(2)` in the
deque's `IndexError`. -/
theorem c10_annotation_layer_attribute_errors_witness :
    (BlipDocument.delete ⟨['A'], [], 0⟩ 1).2 =
      some "AttributeError: Annotations instance has no attribute popleft" ∧
    (BlipDocument.delete ⟨['A'], [], 0⟩ 2).2 =
      some "IndexError: pop from an empty deque" :=
  ⟨c10_annotation_layer_attribute_errors.2.2.2.1 ⟨['A'], [], 0⟩ 1 (by decide),
   c10_annotation_layer_attribute_errors.2.2.2.2 ⟨['A'], [], 0⟩ 2 (by decide)⟩

/-- C3 (witness): the mutation characterization applied at the containment
pair `(0,5,"b","true")`, `(1,3,"b","true")`. -/
theorem c3_eq_mutation_amended_witness :
    annotationEq ⟨0, 5, "b", "true"⟩ ⟨1, 3, "b", "true"⟩ =
      if (⟨0, 5, "b", "true"⟩ : Annotation).name =
            (⟨1, 3, "b", "true"⟩ : Annotation).name ∧
          (⟨0, 5, "b", "true"⟩ : Annotation).value =
            (⟨1, 3, "b", "true"⟩ : Annotation).value
      then (true, envRange ⟨0, 5, "b", "true"⟩ ⟨1, 3, "b", "true"⟩,
            envRange ⟨0, 5, "b", "true"⟩ ⟨1, 3, "b", "true"⟩)
      else (false, ⟨0, 5, "b", "true"⟩, ⟨1, 3, "b", "true"⟩) :=
  c3_eq_mutation_amended ⟨0, 5, "b", "true"⟩ ⟨1, 3, "b", "true"⟩

/-- C9 (witness): the append-only fold statement applied to `[u1]` under
`append(u2)` followed by `remove(u1)`. -/
theorem c9_contributors_append_only_witness :
    ∃ s, ([ContribOp.append "u2", ContribOp.remove "u1"].foldl applyContribOp
      (Contributors.mk ["u1"])).data = ["u1"] ++ s :=
  c9_contributors_append_only.2.2.2.2.2.2.2.2.2 (Contributors.mk ["u1"])
    [ContribOp.append "u2", ContribOp.remove "u1"]
